import Mathlib

/-!
Verification development for the SPARQL-101 playlist repository.

The repository has two stages:
* an Extractor (`rdf_schema.py`) that turns playlist items into an RDF graph
  of (subject, predicate, object) triples, and
* a Query Runner (`sparql.py`) that loads that graph and answers one of ten
  fixed SPARQL queries selected on the command line.

We shallowly embed both stages.  RDF nodes are either URIs or literals, a
graph is the list of its triples (rdflib graphs are sets of triples; the
Extractor's `Graph.add` below skips duplicates, so built graphs have no
duplicate entries), and each SPARQL query is embedded as the corresponding
join / filter / sort over the triple list, following the query text in
`sparql.py` pattern by pattern.
-/

/-- An RDF node: a URI reference or a literal.  Both carry their lexical
form as a string, mirroring rdflib's `URIRef` and `Literal` (both of which
are `str` subclasses). -/
inductive Node where
  | uri (s : String)
  | lit (s : String)
deriving DecidableEq

/-- The underlying string of a node, as Python's `str(term)` /
`term.split` see it. -/
def Node.str : Node → String
  | .uri s => s
  | .lit s => s

/-- One RDF triple. -/
structure Triple where
  s : Node
  p : Node
  o : Node
deriving DecidableEq

/-- A graph is the list of its triples. -/
abbrev Graph := List Triple

/-- The `rdf:type` predicate (the `a` keyword in the SPARQL queries). -/
def rdf_type : Node := .uri "http://www.w3.org/1999/02/22-rdf-syntax-ns#type"

/-- `schema1:MusicRecording`. -/
def schemaMusicRecording : Node := .uri "http://schema.org/MusicRecording"

/-- `schema1:name`. -/
def schemaName : Node := .uri "http://schema.org/name"

/-- `schema1:duration`. -/
def schemaDuration : Node := .uri "http://schema.org/duration"

/-- `schema1:byArtist`. -/
def schemaByArtist : Node := .uri "http://schema.org/byArtist"

/-- `schema1:inAlbum`. -/
def schemaInAlbum : Node := .uri "http://schema.org/inAlbum"

/-! ### Decimal rendering and parsing of natural numbers

Python renders nonnegative integers in decimal (`f"{minutes}"`,
`f"{seconds:02d}"`) and parses them back with `int(...)`, which accepts a
nonempty string of decimal digits.  We embed both directions over
`List Char`. -/

/-- The decimal digit character for `d < 10` (mirrors how Python renders a
single digit). -/
def digitChar : Nat → Char
  | 0 => '0'
  | 1 => '1'
  | 2 => '2'
  | 3 => '3'
  | 4 => '4'
  | 5 => '5'
  | 6 => '6'
  | 7 => '7'
  | 8 => '8'
  | 9 => '9'
  | _ => '*'

/-- Numeric value of a digit character. -/
def charToDigit (c : Char) : Nat := c.toNat - 48

/-- Value of a big-endian digit string, as `int()` computes it (leading
zeros allowed). -/
def charsToNat (cs : List Char) : Nat :=
  cs.foldl (fun acc c => acc * 10 + charToDigit c) 0

/-- Decimal rendering of a natural number, as Python's `f"{n}"`. -/
def natToChars (n : Nat) : List Char :=
  if _h : n < 10 then [digitChar n]
  else natToChars (n / 10) ++ [digitChar (n % 10)]
decreasing_by exact Nat.div_lt_self (by omega) (by omega)

/-- Python's `f"{n:02d}"`: the decimal rendering zero-padded to width 2. -/
def pad2Chars (n : Nat) : List Char :=
  if n < 10 then '0' :: natToChars n else natToChars n

/-- `rdf_schema.py` / `playlist_data.py` `convert_duration`: milliseconds to
the string `f"{duration_ms // 60000}:{(duration_ms % 60000) // 1000:02d}"`. -/
def convert_duration (duration_ms : Nat) : String :=
  ⟨natToChars (duration_ms / 60000) ++ ':' :: pad2Chars ((duration_ms % 60000) / 1000)⟩

/-- Python's `str.split(":")` on a character list. -/
def splitOnColon : List Char → List (List Char)
  | [] => [[]]
  | c :: rest =>
    if c = ':' then [] :: splitOnColon rest
    else
      match splitOnColon rest with
      | [] => [[c]]
      | part :: parts => (c :: part) :: parts

/-- Python's `int(s)` on the strings arising here: succeeds on a nonempty
all-digit string, raises (`none`) otherwise. -/
def int_of_chars (cs : List Char) : Option Nat :=
  if cs ≠ [] ∧ cs.all Char.isDigit = true then some (charsToNat cs) else none

/-- The Query Runner's duration parsing
`minutes, seconds = map(int, duration_str.split(":"))` followed by
`minutes * 60 + seconds`; `none` models the `ValueError` raised on a
malformed string. -/
def parse_duration (s : String) : Option Nat :=
  match splitOnColon s.data with
  | [mcs, scs] =>
    match int_of_chars mcs, int_of_chars scs with
    | some m, some sec => some (m * 60 + sec)
    | _, _ => none
  | _ => none

/-! ### Basic lemmas about rendering and parsing -/

theorem charsToNat_go (cs : List Char) :
    ∀ acc : Nat, cs.foldl (fun a c => a * 10 + charToDigit c) acc
      = acc * 10 ^ cs.length + charsToNat cs := by
  induction cs with
  | nil => intro acc; simp [charsToNat]
  | cons c rest ih =>
    intro acc
    simp only [List.foldl_cons, List.length_cons, charsToNat, Nat.zero_mul, Nat.zero_add]
    rw [ih (acc * 10 + charToDigit c), ih (charToDigit c)]
    ring

theorem charsToNat_append (a b : List Char) :
    charsToNat (a ++ b) = charsToNat a * 10 ^ b.length + charsToNat b := by
  unfold charsToNat
  rw [List.foldl_append, charsToNat_go]
  rfl

theorem charsToNat_cons_zero (cs : List Char) :
    charsToNat ('0' :: cs) = charsToNat cs := by
  unfold charsToNat
  simp [charToDigit]

theorem charToDigit_digitChar : ∀ d < 10, charToDigit (digitChar d) = d := by decide

theorem isDigit_digitChar : ∀ d < 10, (digitChar d).isDigit = true := by decide

theorem digitChar_ne_colon : ∀ d < 10, digitChar d ≠ ':' := by decide

theorem charsToNat_natToChars (n : Nat) : charsToNat (natToChars n) = n := by
  induction n using Nat.strong_induction_on with
  | _ n ih =>
    unfold natToChars
    split
    · next h =>
      show charsToNat [digitChar n] = n
      unfold charsToNat
      simp [charToDigit_digitChar n h]
    · next h =>
      rw [charsToNat_append, ih (n / 10) (Nat.div_lt_self (by omega) (by omega))]
      unfold charsToNat
      simp [charToDigit_digitChar (n % 10) (Nat.mod_lt n (by omega))]
      omega

theorem natToChars_ne_nil (n : Nat) : natToChars n ≠ [] := by
  unfold natToChars
  split
  · simp
  · simp

theorem natToChars_all_digits (n : Nat) : ∀ c ∈ natToChars n, c.isDigit = true := by
  induction n using Nat.strong_induction_on with
  | _ n ih =>
    unfold natToChars
    split
    · next h =>
      intro c hc
      simp at hc
      subst hc
      exact isDigit_digitChar n h
    · next h =>
      intro c hc
      rcases List.mem_append.1 hc with h1 | h2
      · exact ih (n / 10) (Nat.div_lt_self (by omega) (by omega)) c h1
      · simp at h2
        subst h2
        exact isDigit_digitChar (n % 10) (Nat.mod_lt n (by omega))

theorem pad2Chars_all_digits (n : Nat) : ∀ c ∈ pad2Chars n, c.isDigit = true := by
  unfold pad2Chars
  split
  · intro c hc
    rcases List.mem_cons.1 hc with h | h
    · subst h; decide
    · exact natToChars_all_digits n c h
  · exact natToChars_all_digits n

theorem charsToNat_pad2Chars (n : Nat) : charsToNat (pad2Chars n) = n := by
  unfold pad2Chars
  split
  · rw [charsToNat_cons_zero, charsToNat_natToChars]
  · rw [charsToNat_natToChars]

theorem pad2Chars_length (n : Nat) (h : n < 100) : (pad2Chars n).length = 2 := by
  unfold pad2Chars
  split
  · next h10 =>
    have : natToChars n = [digitChar n] := by
      unfold natToChars
      simp [h10]
    simp [this]
  · next h10 =>
    have hge : 10 ≤ n := by omega
    have hd : n / 10 < 10 := by omega
    have : natToChars n = natToChars (n / 10) ++ [digitChar (n % 10)] := by
      conv_lhs => unfold natToChars
      simp [show ¬ n < 10 by omega]
    have h2 : natToChars (n / 10) = [digitChar (n / 10)] := by
      unfold natToChars
      simp [hd]
    simp [this, h2]

theorem no_colon_of_all_digits (cs : List Char) (h : ∀ c ∈ cs, c.isDigit = true) :
    ':' ∉ cs := by
  intro hmem
  have := h ':' hmem
  simp [Char.isDigit] at this

theorem splitOnColon_of_no_colon (a : List Char) (h : ':' ∉ a) :
    splitOnColon a = [a] := by
  induction a with
  | nil => rfl
  | cons c rest ih =>
    have hc : c ≠ ':' := fun hc => h (hc ▸ List.mem_cons_self c rest)
    have hr : ':' ∉ rest := fun hr => h (List.mem_cons_of_mem c hr)
    unfold splitOnColon
    simp [hc, ih hr]

theorem splitOnColon_append (a b : List Char) (h : ':' ∉ a) :
    splitOnColon (a ++ ':' :: b) = a :: splitOnColon b := by
  induction a with
  | nil => simp [splitOnColon]
  | cons c rest ih =>
    have hc : c ≠ ':' := fun hc => h (hc ▸ List.mem_cons_self c rest)
    have hr : ':' ∉ rest := fun hr => h (List.mem_cons_of_mem c hr)
    simp only [List.cons_append, splitOnColon, List.append_eq, if_neg hc, ih hr]

theorem int_of_chars_digits (cs : List Char) (hne : cs ≠ [])
    (hd : ∀ c ∈ cs, c.isDigit = true) :
    int_of_chars cs = some (charsToNat cs) := by
  unfold int_of_chars
  rw [if_pos ⟨hne, List.all_eq_true.2 hd⟩]

/-- Parsing the rendered duration recovers `minutes * 60 + seconds`
exactly. -/
theorem parse_duration_convert (ms : Nat) :
    parse_duration (convert_duration ms)
      = some ((ms / 60000) * 60 + (ms % 60000) / 1000) := by
  have hm := natToChars_all_digits (ms / 60000)
  have hs := pad2Chars_all_digits ((ms % 60000) / 1000)
  have hne : pad2Chars ((ms % 60000) / 1000) ≠ [] := by
    have := pad2Chars_length ((ms % 60000) / 1000) (by omega)
    intro hnil
    rw [hnil] at this
    simp at this
  unfold parse_duration convert_duration
  rw [show (String.mk (natToChars (ms / 60000) ++ ':' :: pad2Chars ((ms % 60000) / 1000))).data
        = natToChars (ms / 60000) ++ ':' :: pad2Chars ((ms % 60000) / 1000) from rfl,
    splitOnColon_append _ _ (no_colon_of_all_digits _ hm),
    splitOnColon_of_no_colon _ (no_colon_of_all_digits _ hs)]
  simp [int_of_chars_digits _ (natToChars_ne_nil _) hm,
    int_of_chars_digits _ hne hs,
    charsToNat_natToChars, charsToNat_pad2Chars]

/-! ### String comparison and sorting

SPARQL's `>` and `ORDER BY` on the plain duration literals compare their
lexical forms as strings, i.e. codepoint-lexicographically (this is what
rdflib / Python string comparison does).  `ORDER BY` is a stable sort of
the solution sequence (Python's `sorted`); we model it with a stable
insertion sort. -/

/-- Codepoint-lexicographic strict comparison of character lists, as
Python compares strings. -/
def charsLt : List Char → List Char → Bool
  | [], [] => false
  | [], _ :: _ => true
  | _ :: _, [] => false
  | a :: as, b :: bs =>
    if a.toNat < b.toNat then true
    else if b.toNat < a.toNat then false
    else charsLt as bs

/-- Python's `s < t` on strings. -/
def strLt (a b : String) : Bool := charsLt a.data b.data

/-- Python's `s <= t` on strings (total order, so `a <= b` iff `¬ b < a`). -/
def strLe (a b : String) : Bool := !(strLt b a)

/-- Stable insertion into a sorted list: `x` goes before the first element
`y` with `le x y`. -/
def insertOrd {α : Type} (le : α → α → Bool) (x : α) : List α → List α
  | [] => [x]
  | y :: ys => if le x y then x :: y :: ys else y :: insertOrd le x ys

/-- Stable insertion sort, modelling Python's `sorted` with a key. -/
def sortOrd {α : Type} (le : α → α → Bool) : List α → List α
  | [] => []
  | x :: xs => insertOrd le x (sortOrd le xs)

theorem insertOrd_perm {α : Type} (le : α → α → Bool) (x : α) (l : List α) :
    (insertOrd le x l).Perm (x :: l) := by
  induction l with
  | nil => exact List.Perm.refl _
  | cons y ys ih =>
    unfold insertOrd
    split
    · exact List.Perm.refl _
    · exact (ih.cons y).trans (List.Perm.swap x y ys)

theorem sortOrd_perm {α : Type} (le : α → α → Bool) (l : List α) :
    (sortOrd le l).Perm l := by
  induction l with
  | nil => exact List.Perm.refl _
  | cons x xs ih =>
    exact (insertOrd_perm le x (sortOrd le xs)).trans (ih.cons x)

/-! ### The Query Runner (`sparql.py`)

Each query is a join over the graph following its SPARQL text.  A basic
graph pattern `?track a schema1:MusicRecording; schema1:name ?n; ...` is
evaluated as nested iteration over the matching triples; solution rows are
produced in that iteration order, then sorted when the query has
`ORDER BY`. -/

/-- Triples matching the pattern `?track a schema1:MusicRecording`. -/
def typeTriples (g : Graph) : List Triple :=
  g.filter fun t => decide (t.p = rdf_type ∧ t.o = schemaMusicRecording)

/-- Objects `?o` of triples `s p ?o` in the graph. -/
def objectsOf (g : Graph) (s : Node) (p : Node) : List Node :=
  (g.filter fun t => decide (t.s = s ∧ t.p = p)).map Triple.o

/-- Solutions of the pattern shared by `length`, `longest`, `shortest` and
`longer_than`: `?track a schema1:MusicRecording; schema1:name ?songTitle;
schema1:duration ?duration`, as rows `(track, songTitle, duration)`. -/
def songRows (g : Graph) : List (Node × Node × Node) :=
  (typeTriples g).flatMap fun tt =>
    (objectsOf g tt.s schemaName).flatMap fun n =>
      (objectsOf g tt.s schemaDuration).map fun d => (tt.s, n, d)

/-- The duration objects of all `MusicRecording` tracks: the solution rows
of the `duration` query. -/
def durationRows (g : Graph) : List Node :=
  (typeTriples g).flatMap fun tt => objectsOf g tt.s schemaDuration

/-- Sequence all parses; `none` as soon as one row fails, modelling the
`ValueError` that aborts the Python loop. -/
def allSome : List (Option Nat) → Option (List Nat)
  | [] => some []
  | o :: os =>
    match o, allSome os with
    | some v, some vs => some (v :: vs)
    | _, _ => none

/-- `get_total_duration`: parses every duration row with
`map(int, row.duration.split(":"))`, sums `minutes * 60 + seconds`, and
reports `(total // 60, total % 60)`.  `none` models the uncaught
`ValueError` on a malformed duration literal. -/
def get_total_duration (g : Graph) : Option (Nat × Nat) :=
  match allSome ((durationRows g).map fun n => parse_duration n.str) with
  | some secs => some (secs.sum / 60, secs.sum % 60)
  | none => none

/-- `get_total_songs`: `COUNT(?track)` over the solutions of
`?track a schema1:MusicRecording`. -/
def get_total_songs (g : Graph) : Nat :=
  ((typeTriples g).map Triple.s).length

/-- Descending `ORDER BY DESC(?duration)` placement test: row `a` may come
before row `b` when `b`'s duration string is `<=` `a`'s. -/
def durDescLe (a b : Node × Node × Node) : Bool := strLe b.2.2.str a.2.2.str

/-- Ascending `ORDER BY ASC(?duration)` placement test. -/
def durAscLe (a b : Node × Node × Node) : Bool := strLe a.2.2.str b.2.2.str

/-- `get_songs_sorted_by_length`: `(songTitle, duration)` rows ordered by
`ORDER BY DESC(?duration)` — a string sort on the duration literal. -/
def get_songs_sorted_by_length (g : Graph) : List (Node × Node) :=
  (sortOrd durDescLe (songRows g)).map fun r => (r.2.1, r.2.2)

/-- `get_longest_song`: same query with `LIMIT 1`. -/
def get_longest_song (g : Graph) : Option (Node × Node) :=
  ((sortOrd durDescLe (songRows g)).map fun r => (r.2.1, r.2.2)).head?

/-- `get_shortest_song`: `ORDER BY ASC(?duration) LIMIT 1`. -/
def get_shortest_song (g : Graph) : Option (Node × Node) :=
  ((sortOrd durAscLe (songRows g)).map fun r => (r.2.1, r.2.2)).head?

/-- The `FILTER (?duration > "min_duration")` test: rdflib compares a
literal against the plain string lexicographically; a non-literal duration
makes the comparison a type error, which drops the row. -/
def litGtStr (n : Node) (thr : String) : Bool :=
  match n with
  | .lit s => strLt thr s
  | .uri _ => false

/-- `get_songs_longer_than`: the song pattern filtered by
`FILTER (?duration > "{duration}")` — a string comparison. -/
def get_songs_longer_than (g : Graph) (min_duration : String) : List (Node × Node) :=
  (songRows g).filterMap fun r =>
    if litGtStr r.2.2 min_duration then some (r.2.1, r.2.2) else none

/-- Solutions of `?track a schema1:MusicRecording; schema1:name ?songTitle;
schema1:inAlbum ?album. ?album schema1:name ?albumTitle`, as rows
`(albumTitle, songTitle)`. -/
def albumRows (g : Graph) : List (Node × Node) :=
  (typeTriples g).flatMap fun tt =>
    (objectsOf g tt.s schemaName).flatMap fun song =>
      (objectsOf g tt.s schemaInAlbum).flatMap fun al =>
        (objectsOf g al schemaName).map fun alName => (alName, song)

/-- `get_songs_grouped_by_album`: album rows with `ORDER BY ?albumTitle`. -/
def get_songs_grouped_by_album (g : Graph) : List (Node × Node) :=
  sortOrd (fun a b => strLe a.1.str b.1.str) (albumRows g)

/-- Solutions of `?track a schema1:MusicRecording; schema1:name ?songTitle;
schema1:byArtist ?artist. ?artist schema1:name ?artistName`, as rows
`(artistName, songTitle)`. -/
def artistSongRows (g : Graph) : List (Node × Node) :=
  (typeTriples g).flatMap fun tt =>
    (objectsOf g tt.s schemaName).flatMap fun song =>
      (objectsOf g tt.s schemaByArtist).flatMap fun a =>
        (objectsOf g a schemaName).map fun aName => (aName, song)

/-- `get_songs_grouped_by_artist`: artist rows with `ORDER BY ?artistName`. -/
def get_songs_grouped_by_artist (g : Graph) : List (Node × Node) :=
  sortOrd (fun a b => strLe a.1.str b.1.str) (artistSongRows g)

/-- Solutions of `?track a schema1:MusicRecording; schema1:byArtist
?artist. ?artist schema1:name ?artistName`, keeping the artist identity:
rows `(artist, artistName, track)`. -/
def artistTrackRows (g : Graph) : List (Node × Node × Node) :=
  (typeTriples g).flatMap fun tt =>
    (objectsOf g tt.s schemaByArtist).flatMap fun a =>
      (objectsOf g a schemaName).map fun aName => (a, aName, tt.s)

/-- The same solutions projected to `(artistName, track)`, the variables
`get_artists_by_appearance` groups and counts. -/
def byAppearanceRows (g : Graph) : List (Node × Node) :=
  (artistTrackRows g).map fun r => (r.2.1, r.2.2)

/-- The `GROUP BY ?artistName` result before ordering: one row per distinct
artist name, paired with `COUNT(?track)` over its group. -/
def groupRows (g : Graph) : List (Node × Nat) :=
  ((byAppearanceRows g).map Prod.fst).dedup.map fun nm =>
    (nm, (byAppearanceRows g).countP fun r => decide (r.1 = nm))

/-- `get_artists_by_appearance`: grouped counts with
`ORDER BY DESC(?numSongs)`. -/
def get_artists_by_appearance (g : Graph) : List (Node × Nat) :=
  sortOrd (fun a b => decide (b.2 ≤ a.2)) (groupRows g)

/-- `get_all_artists`: `SELECT DISTINCT ?artistName ... ORDER BY
ASC(?artistName)`, returned as Python strings via `str(row.artistName)`. -/
def get_all_artists (g : Graph) : List String :=
  sortOrd strLe ((((typeTriples g).flatMap fun tt =>
    (objectsOf g tt.s schemaByArtist).flatMap fun a =>
      objectsOf g a schemaName).map Node.str).dedup)

/-- The query part of `get_songs_by_artist` for a selected artist name:
`?track a schema1:MusicRecording; schema1:name ?songTitle; schema1:byArtist
?artist. ?artist schema1:name "selected"`. -/
def songs_by_artist_results (g : Graph) (selected : String) : List Node :=
  (typeTriples g).flatMap fun tt =>
    (objectsOf g tt.s schemaName).flatMap fun song =>
      (objectsOf g tt.s schemaByArtist).filterMap fun a =>
        if (Triple.mk a schemaName (.lit selected)) ∈ g then some song else none

/-! ### The Extractor (`rdf_schema.py`)

One playlist item resolves to a track record (URI, name, duration in
milliseconds, primary artist `track_info['artists'][0]`, album); the loop
adds seven triples per item to an rdflib `Graph`, whose `add` ignores a
triple already present. -/

/-- The primary artist of a playlist item (`uri` and `name` fields). -/
structure ArtistRec where
  uri : String
  name : String
deriving DecidableEq

/-- The album of a playlist item. -/
structure AlbumRec where
  uri : String
  name : String
deriving DecidableEq

/-- One playlist item with all fields present, as the Extractor reads it
from the API response (`artist` is `track_info['artists'][0]`). -/
structure TrackRec where
  uri : String
  name : String
  duration_ms : Nat
  artist : ArtistRec
  album : AlbumRec
deriving DecidableEq

/-- rdflib's `Graph.add`: graphs are triple sets, so adding a triple that
is already present changes nothing. -/
def Graph.add (g : Graph) (t : Triple) : Graph :=
  if t ∈ g then g else g ++ [t]

/-- The seven triples the Extractor emits for one playlist item, in
emission order. -/
def trackTriples (t : TrackRec) : List Triple :=
  [ ⟨.uri t.uri, rdf_type, schemaMusicRecording⟩,
    ⟨.uri t.uri, schemaName, .lit t.name⟩,
    ⟨.uri t.uri, schemaDuration, .lit (convert_duration t.duration_ms)⟩,
    ⟨.uri t.uri, schemaByArtist, .uri t.artist.uri⟩,
    ⟨.uri t.artist.uri, schemaName, .lit t.artist.name⟩,
    ⟨.uri t.uri, schemaInAlbum, .uri t.album.uri⟩,
    ⟨.uri t.album.uri, schemaName, .lit t.album.name⟩ ]

/-- Add a list of triples one by one. -/
def addTriples (g : Graph) (ts : List Triple) : Graph :=
  ts.foldl Graph.add g

/-- The Extractor's track loop: starting from the empty graph, add the
seven triples of every playlist item in playlist order. -/
def buildGraph (items : List TrackRec) : Graph :=
  items.foldl (fun g t => addTriples g (trackTriples t)) []

/-! ### The Query Runner's command-line dispatch (`__main__` in `sparql.py`)

One invocation runs exactly one branch of the `if/elif` chain.  The result
records which query ran with its value (or the printed error message for a
missing `--min_duration`), together with the process exit status: Python
exits `0` when the script runs to completion, and `1` when an uncaught
exception (the `ValueError` of the `duration` query on a malformed
literal) aborts it.  `--query` is a required choice of the ten names
(argparse enforces that before dispatch); `--min_duration` is optional and
the `longer_than` branch treats `None` and `""` as missing (Python
falsiness).  The interactive input of `by_artist` is passed in as
`artistInput`. -/

inductive RunOutcome where
  | ranDuration (r : Option (Nat × Nat))
  | ranTotalSongs (n : Nat)
  | ranLength (rows : List (Node × Node))
  | ranLongest (r : Option (Node × Node))
  | ranShortest (r : Option (Node × Node))
  | ranLongerThan (rows : List (Node × Node))
  | ranAlbum (rows : List (Node × Node))
  | ranArtist (rows : List (Node × Node))
  | ranByAppearance (rows : List (Node × Nat))
  | ranByArtist (artists : List String) (songs : List Node)
  | errorMsg (msg : String)
  | noOp
deriving DecidableEq

/-- The error printed by the `longer_than` branch when `--min_duration` is
missing. -/
def minDurationError : String :=
  "Error: --min_duration is required for the \x27longer_than\x27 query."

/-- Python truthiness of the optional `--min_duration` value. -/
def truthy : Option String → Bool
  | none => false
  | some s => decide (s ≠ "")

/-- The `if/elif` dispatch of `__main__`, returning the outcome and the
process exit status. -/
def main_dispatch (g : Graph) (query : String) (min_duration : Option String)
    (artistInput : String) : RunOutcome × Nat :=
  if query = "duration" then
    match get_total_duration g with
    | some r => (.ranDuration (some r), 0)
    | none => (.ranDuration none, 1)
  else if query = "total_songs" then (.ranTotalSongs (get_total_songs g), 0)
  else if query = "length" then (.ranLength (get_songs_sorted_by_length g), 0)
  else if query = "longest" then (.ranLongest (get_longest_song g), 0)
  else if query = "shortest" then (.ranShortest (get_shortest_song g), 0)
  else if query = "longer_than" then
    match min_duration with
    | some s => if s = "" then (.errorMsg minDurationError, 0)
                else (.ranLongerThan (get_songs_longer_than g s), 0)
    | none => (.errorMsg minDurationError, 0)
  else if query = "album" then (.ranAlbum (get_songs_grouped_by_album g), 0)
  else if query = "artist" then (.ranArtist (get_songs_grouped_by_artist g), 0)
  else if query = "by_appearance" then (.ranByAppearance (get_artists_by_appearance g), 0)
  else if query = "by_artist" then
    (.ranByArtist (get_all_artists g) (songs_by_artist_results g artistInput), 0)
  else (.noOp, 0)

/-! ### General counting helpers -/

theorem sum_map_eq_length_of_ones {α : Type} (l : List α) (f : α → Nat)
    (h : ∀ a ∈ l, f a = 1) : (l.map f).sum = l.length := by
  induction l with
  | nil => rfl
  | cons a t ih =>
    simp only [List.map_cons, List.sum_cons, List.length_cons,
      h a (List.mem_cons_self a t)]
    rw [ih fun x hx => h x (List.mem_cons_of_mem a hx)]
    omega

theorem sum_map_add {α : Type} (l : List α) (f g : α → Nat) :
    (l.map fun a => f a + g a).sum = (l.map f).sum + (l.map g).sum := by
  induction l with
  | nil => rfl
  | cons a t ih =>
    simp only [List.map_cons, List.sum_cons, ih]
    omega

theorem sum_map_ite_eq_countP {α : Type} (l : List α) (p : α → Bool) :
    (l.map fun a => if p a then 1 else 0).sum = l.countP p := by
  induction l with
  | nil => rfl
  | cons a t ih =>
    simp only [List.map_cons, List.sum_cons, List.countP_cons, ih]
    omega

theorem countP_eq_zero_of_not_mem {α : Type} [DecidableEq α] (l : List α) (a : α)
    (h : a ∉ l) : (l.countP fun b => decide (b = a)) = 0 := by
  apply List.countP_eq_zero.2
  intro b hb
  simp only [decide_eq_true_eq]
  intro hba
  exact h (hba ▸ hb)

theorem countP_eq_one_of_nodup_mem {α : Type} [DecidableEq α] (l : List α) (a : α)
    (hnd : l.Nodup) (hmem : a ∈ l) : (l.countP fun b => decide (b = a)) = 1 := by
  induction l with
  | nil => cases hmem
  | cons b t ih =>
    rw [List.countP_cons]
    rcases List.mem_cons.1 hmem with h | h
    · have hb : a ∉ t := by rw [h]; exact (List.nodup_cons.1 hnd).1
      rw [countP_eq_zero_of_not_mem t a hb]
      simp [h.symm]
    · rw [ih (List.nodup_cons.1 hnd).2 h]
      have hba : b ≠ a := by
        intro hba
        exact (List.nodup_cons.1 hnd).1 (hba ▸ h)
      simp [hba]

theorem sum_countP_dedup {α : Type} [DecidableEq α] (l : List α) :
    (l.dedup.map fun a => l.countP fun b => decide (b = a)).sum = l.length := by
  induction l with
  | nil => rfl
  | cons x t ih =>
    have hcnt : ∀ a : α, (List.countP (fun b => decide (b = a)) (x :: t))
        = List.countP (fun b => decide (b = a)) t + (if x = a then 1 else 0) := by
      intro a
      rw [List.countP_cons]
      simp
    by_cases hx : x ∈ t
    · rw [List.dedup_cons_of_mem hx]
      have : ((t.dedup).map fun a => List.countP (fun b => decide (b = a)) (x :: t)).sum
          = ((t.dedup).map fun a => List.countP (fun b => decide (b = a)) t).sum
            + ((t.dedup).map fun a => if x = a then 1 else 0).sum := by
        rw [← sum_map_add]
        congr 1
        exact List.map_congr_left fun a _ => hcnt a
      rw [this, ih]
      have hind : ((t.dedup).map fun a => if x = a then 1 else 0).sum = 1 := by
        have : ((t.dedup).map fun a => if x = a then 1 else 0).sum
            = (t.dedup).countP fun a => decide (x = a) := by
          rw [← sum_map_ite_eq_countP]
          congr 1
          exact List.map_congr_left fun a _ => by by_cases h : x = a <;> simp [h]
        rw [this]
        have : ((t.dedup).countP fun a => decide (x = a))
            = (t.dedup).countP fun a => decide (a = x) := by
          congr 1
          funext a
          exact decide_eq_decide.mpr eq_comm
        rw [this]
        exact countP_eq_one_of_nodup_mem _ _ (List.nodup_dedup t) (List.mem_dedup.2 hx)
      simp [hind]
    · rw [List.dedup_cons_of_not_mem hx]
      simp only [List.map_cons, List.sum_cons]
      have h1 : List.countP (fun b => decide (b = x)) (x :: t) = 1 := by
        rw [List.countP_cons, countP_eq_zero_of_not_mem t x hx]
        simp
      have h2 : ((t.dedup).map fun a => List.countP (fun b => decide (b = a)) (x :: t)).sum
          = ((t.dedup).map fun a => List.countP (fun b => decide (b = a)) t).sum
            + ((t.dedup).map fun a => if x = a then 1 else 0).sum := by
        rw [← sum_map_add]
        congr 1
        exact List.map_congr_left fun a _ => hcnt a
      have h3 : ((t.dedup).map fun a => if x = a then 1 else 0).sum = 0 := by
        have : ∀ a ∈ t.dedup, (if x = a then 1 else 0) = 0 := by
          intro a ha
          have : x ≠ a := by
            intro hh
            exact hx (List.mem_dedup.1 (hh ▸ ha))
          simp [this]
        rw [List.map_congr_left this]
        simp
      rw [h1, h2, h3, ih]
      simp [Nat.add_comm]

theorem countP_congr_mem {α : Type} (l : List α) (p q : α → Bool)
    (h : ∀ a ∈ l, p a = q a) : l.countP p = l.countP q := by
  induction l with
  | nil => rfl
  | cons a t ih =>
    rw [List.countP_cons, List.countP_cons, h a (List.mem_cons_self a t),
      ih fun x hx => h x (List.mem_cons_of_mem a hx)]

theorem countP_or_split {α : Type} (l : List α) (p q : α → Prop)
    [DecidablePred p] [DecidablePred q] (h : ∀ a ∈ l, ¬(p a ∧ q a)) :
    (l.countP fun a => decide (p a ∨ q a))
      = (l.countP fun a => decide (p a)) + (l.countP fun a => decide (q a)) := by
  induction l with
  | nil => rfl
  | cons a t ih =>
    simp only [List.countP_cons]
    rw [ih fun x hx => h x (List.mem_cons_of_mem a hx)]
    have := h a (List.mem_cons_self a t)
    by_cases hp : p a <;> by_cases hq : q a <;> simp [hp, hq] at this ⊢ <;> omega

theorem length_eq_one_of_nodup {α : Type} (l : List α) (x : α) (hnd : l.Nodup)
    (hx : x ∈ l) (hall : ∀ y ∈ l, y = x) : l.length = 1 := by
  match l with
  | [] => cases hx
  | a :: t =>
    have hat : a = x := hall a (List.mem_cons_self a t)
    have ht : t = [] := by
      rw [List.eq_nil_iff_forall_not_mem]
      intro b hb
      have hbx : b = x := hall b (List.mem_cons_of_mem a hb)
      exact (List.nodup_cons.1 hnd).1 ((hat.trans hbx.symm) ▸ hb)
    rw [ht]
    rfl

/-! ### Lemmas about the Extractor's graph construction -/

theorem mem_add (g : Graph) (t x : Triple) :
    x ∈ Graph.add g t ↔ x ∈ g ∨ x = t := by
  unfold Graph.add
  split
  · next h =>
    constructor
    · exact Or.inl
    · rintro (hx | hx)
      · exact hx
      · exact hx ▸ h
  · simp

theorem nodup_add (g : Graph) (t : Triple) (h : g.Nodup) : (Graph.add g t).Nodup := by
  unfold Graph.add
  split
  · exact h
  · next hni =>
    rw [List.nodup_append]
    exact ⟨h, List.nodup_singleton t, fun a ha hb => hni ((List.mem_singleton.1 hb) ▸ ha)⟩

theorem mem_addTriples (ts : List Triple) :
    ∀ (g : Graph) (x : Triple), x ∈ addTriples g ts ↔ x ∈ g ∨ x ∈ ts := by
  induction ts with
  | nil => intro g x; simp [addTriples]
  | cons t rest ih =>
    intro g x
    show x ∈ addTriples (Graph.add g t) rest ↔ _
    rw [ih (Graph.add g t) x, mem_add]
    simp [or_assoc]

theorem nodup_addTriples (ts : List Triple) :
    ∀ g : Graph, g.Nodup → (addTriples g ts).Nodup := by
  induction ts with
  | nil => intro g h; exact h
  | cons t rest ih =>
    intro g h
    exact ih (Graph.add g t) (nodup_add g t h)

theorem mem_buildGraph_go (items : List TrackRec) :
    ∀ (g : Graph) (x : Triple),
      x ∈ items.foldl (fun g t => addTriples g (trackTriples t)) g
        ↔ x ∈ g ∨ ∃ it ∈ items, x ∈ trackTriples it := by
  induction items with
  | nil => intro g x; simp
  | cons it rest ih =>
    intro g x
    show x ∈ rest.foldl _ (addTriples g (trackTriples it)) ↔ _
    rw [ih (addTriples g (trackTriples it)) x, mem_addTriples]
    simp only [List.mem_cons]
    constructor
    · rintro ((h | h) | ⟨j, hj, hx⟩)
      · exact Or.inl h
      · exact Or.inr ⟨it, Or.inl rfl, h⟩
      · exact Or.inr ⟨j, Or.inr hj, hx⟩
    · rintro (h | ⟨j, (hj | hj), hx⟩)
      · exact Or.inl (Or.inl h)
      · exact Or.inl (Or.inr (hj ▸ hx))
      · exact Or.inr ⟨j, hj, hx⟩

theorem mem_buildGraph (items : List TrackRec) (x : Triple) :
    x ∈ buildGraph items ↔ ∃ it ∈ items, x ∈ trackTriples it := by
  unfold buildGraph
  rw [mem_buildGraph_go items [] x]
  simp

theorem nodup_buildGraph_go (items : List TrackRec) :
    ∀ g : Graph, g.Nodup →
      (items.foldl (fun g t => addTriples g (trackTriples t)) g).Nodup := by
  induction items with
  | nil => intro g h; exact h
  | cons it rest ih =>
    intro g h
    exact ih (addTriples g (trackTriples it)) (nodup_addTriples (trackTriples it) g h)

theorem nodup_buildGraph (items : List TrackRec) : (buildGraph items).Nodup :=
  nodup_buildGraph_go items [] List.nodup_nil

/-! ### Claim theorems -/

/-- C2: for every nonnegative integer millisecond value `ms`, the duration
string produced by `convert_duration`, when parsed back to total seconds
as `minutes * 60 + seconds` by the Query Runner's parsing, equals
`ms / 1000` exactly. -/
theorem convert_duration_parse_roundtrip (ms : Nat) :
    parse_duration (convert_duration ms) = some (ms / 1000) := by
  rw [parse_duration_convert]
  congr 1
  omega

/-- C10: `convert_duration` always returns a string of the form
`<decimal minutes> ":" <exactly two decimal digits>` with the seconds
component in `00`–`59`, and the Query Runner's split-on-colon integer
parsing succeeds on every such string. -/
theorem convert_duration_format (ms : Nat) :
    ∃ mcs scs : List Char,
      (convert_duration ms).data = mcs ++ ':' :: scs
      ∧ mcs ≠ [] ∧ (∀ c ∈ mcs, c.isDigit = true)
      ∧ scs.length = 2 ∧ (∀ c ∈ scs, c.isDigit = true)
      ∧ charsToNat scs ≤ 59
      ∧ (parse_duration (convert_duration ms)).isSome = true := by
  refine ⟨natToChars (ms / 60000), pad2Chars ((ms % 60000) / 1000), rfl,
    natToChars_ne_nil _, natToChars_all_digits _,
    pad2Chars_length _ (by omega), pad2Chars_all_digits _, ?_, ?_⟩
  · rw [charsToNat_pad2Chars]
    omega
  · rw [parse_duration_convert]
    rfl

/-- The number of triples in the graph asserting `rdf:type MusicRecording`
(the spec's description of what `total_songs` reports). -/
def numMusicRecordingTriples (g : Graph) : Nat :=
  g.countP fun t => decide (t.p = rdf_type ∧ t.o = schemaMusicRecording)

/-- C4: for every graph, `get_total_songs` reports exactly the number of
triples asserting type `MusicRecording`. -/
theorem total_songs_counts_type_triples (g : Graph) :
    get_total_songs g = numMusicRecordingTriples g := by
  unfold get_total_songs numMusicRecordingTriples typeTriples
  rw [List.length_map, List.countP_eq_length_filter]

/-- A graph holding one track whose duration, `"12:30"`, parses to 750
seconds — numerically above a `"4:00"` (240 second) threshold but
lexicographically below it. -/
def longerThanBugGraph : Graph :=
  [ ⟨.uri "spotify:track:long", rdf_type, schemaMusicRecording⟩,
    ⟨.uri "spotify:track:long", schemaName, .lit "Long Song"⟩,
    ⟨.uri "spotify:track:long", schemaDuration, .lit "12:30"⟩ ]

/-- C1 (refuted by the code, confirming the spec's flagged defect): the
track with parsed duration 750 s exceeds the parsed `"4:00"` threshold of
240 s, so the claim requires it in the result, but
`get_songs_longer_than`'s string FILTER compares `"12:30" > "4:00"`
lexicographically and returns nothing. -/
theorem longer_than_string_filter_misses_numeric :
    get_songs_longer_than longerThanBugGraph "4:00" = []
    ∧ parse_duration "12:30" = some 750
    ∧ parse_duration "4:00" = some 240
    ∧ 240 < 750 := by decide

/-- A graph with two tracks whose numeric duration order is the reverse of
the lexicographic order of their duration strings. -/
def orderingBugGraph : Graph :=
  [ ⟨.uri "spotify:track:a", rdf_type, schemaMusicRecording⟩,
    ⟨.uri "spotify:track:a", schemaName, .lit "A"⟩,
    ⟨.uri "spotify:track:a", schemaDuration, .lit "10:05"⟩,
    ⟨.uri "spotify:track:b", rdf_type, schemaMusicRecording⟩,
    ⟨.uri "spotify:track:b", schemaName, .lit "B"⟩,
    ⟨.uri "spotify:track:b", schemaDuration, .lit "2:30"⟩ ]

/-- C3 (refuted by the code, confirming the spec's flagged defect): track A
parses to 605 s and track B to 150 s, so the first element of the length
query's output resorted numerically descending is A; but the code's
lexicographic `ORDER BY DESC(?duration)` makes the longest query report B
and the shortest query report A. -/
theorem longest_shortest_lexicographic_divergence :
    get_longest_song orderingBugGraph = some (.lit "B", .lit "2:30")
    ∧ get_shortest_song orderingBugGraph = some (.lit "A", .lit "10:05")
    ∧ parse_duration "10:05" = some 605
    ∧ parse_duration "2:30" = some 150
    ∧ 150 < 605 := by decide

/-- C7 (counterexample): selecting `longer_than` without `--min_duration`
makes the script print the error and fall off the end of `__main__`, so
the process exits with status `0`, not the non-zero status the claim
requires. -/
theorem missing_min_duration_exit_status_zero :
    (main_dispatch [] "longer_than" none "").2 = 0 := by decide

/-- C7 (amended): for every graph, selecting `longer_than` with
`--min_duration` absent (or empty, which Python's truthiness also treats
as missing) reports the clear error message and runs no query — but the
process exits with status zero. -/
theorem missing_min_duration_reports_error (g : Graph) (inp : String) :
    main_dispatch g "longer_than" none inp = (.errorMsg minDurationError, 0)
    ∧ main_dispatch g "longer_than" (some "") inp = (.errorMsg minDurationError, 0) := by
  constructor <;> rfl

/-- A graph whose single `MusicRecording` carries a duration literal that
is not of the `"M:SS"` form. -/
def malformedGraph : Graph :=
  [ ⟨.uri "spotify:track:x", rdf_type, schemaMusicRecording⟩,
    ⟨.uri "spotify:track:x", schemaDuration, .lit "abc"⟩ ]

/-- C8 (counterexample): the `duration` query over a graph with a
non-`"M:SS"` duration literal raises an uncaught `ValueError` (modelled by
the `none` result) and the process aborts with exit status 1, instead of
yielding an empty result set and exiting successfully as the claim
states. -/
theorem duration_query_crashes_on_malformed :
    main_dispatch malformedGraph "duration" none "" = (.ranDuration none, 1) := by decide

/-- C8 (amended): every query in the catalog, run over the empty graph,
yields an empty result set (zero totals) and a successful exit, and the
interactive `by_artist` query handles a graph with zero artists without
failing; but on a graph whose duration literals are malformed the
`duration` query raises a parse error rather than succeeding. -/
theorem queries_on_empty_graph_succeed :
    get_total_duration [] = some (0, 0)
    ∧ get_total_songs [] = 0
    ∧ get_songs_sorted_by_length [] = []
    ∧ get_longest_song [] = none
    ∧ get_shortest_song [] = none
    ∧ (∀ thr : String, get_songs_longer_than [] thr = [])
    ∧ get_songs_grouped_by_album [] = []
    ∧ get_songs_grouped_by_artist [] = []
    ∧ get_artists_by_appearance [] = []
    ∧ get_all_artists [] = []
    ∧ (∀ sel : String, songs_by_artist_results [] sel = [])
    ∧ (∀ inp : String, (main_dispatch [] "by_artist" none inp).2 = 0)
    ∧ get_total_duration malformedGraph = none :=
  ⟨by decide, rfl, rfl, rfl, rfl, fun _ => rfl, rfl, rfl, rfl, rfl,
    fun _ => rfl, fun _ => rfl, by decide⟩

/-- Under the Extractor's shape invariants — every `MusicRecording` track
has exactly one `byArtist` triple, and every referenced artist exactly one
`name` triple — the artist/track join has one solution per track. -/
theorem artistTrackRows_length (g : Graph)
    (h1 : ∀ tt ∈ typeTriples g, (objectsOf g tt.s schemaByArtist).length = 1)
    (h2 : ∀ tt ∈ typeTriples g, ∀ a ∈ objectsOf g tt.s schemaByArtist,
      (objectsOf g a schemaName).length = 1) :
    (artistTrackRows g).length = (typeTriples g).length := by
  unfold artistTrackRows
  rw [List.length_flatMap]
  apply sum_map_eq_length_of_ones
  intro tt htt
  simp only [Function.comp_apply]
  rw [List.length_flatMap]
  have hinner : ∀ a ∈ objectsOf g tt.s schemaByArtist,
      (List.length ∘ fun a => (objectsOf g a schemaName).map fun aName => (a, aName, tt.s)) a
        = 1 := by
    intro a ha
    simp only [Function.comp_apply, List.length_map]
    exact h2 tt htt a ha
  rw [sum_map_eq_length_of_ones _ _ hinner]
  exact h1 tt htt

/-- C5: for every graph with the Extractor's shape (each track exactly one
`byArtist` reference, each referenced artist exactly one name), the
per-artist counts reported by `get_artists_by_appearance` sum to the count
reported by `get_total_songs`. -/
theorem by_appearance_sum_eq_total_songs (g : Graph)
    (h1 : ∀ tt ∈ typeTriples g, (objectsOf g tt.s schemaByArtist).length = 1)
    (h2 : ∀ tt ∈ typeTriples g, ∀ a ∈ objectsOf g tt.s schemaByArtist,
      (objectsOf g a schemaName).length = 1) :
    ((get_artists_by_appearance g).map Prod.snd).sum = get_total_songs g := by
  unfold get_artists_by_appearance
  rw [((sortOrd_perm (fun a b => decide (b.2 ≤ a.2)) (groupRows g)).map Prod.snd).sum_eq]
  unfold groupRows
  rw [List.map_map]
  have hcomp : (Prod.snd ∘ fun nm =>
      (nm, (byAppearanceRows g).countP fun r => decide (r.1 = nm)))
        = fun nm => (byAppearanceRows g).countP fun r => decide (r.1 = nm) := rfl
  rw [hcomp]
  have hcnt : ∀ nm ∈ ((byAppearanceRows g).map Prod.fst).dedup,
      ((byAppearanceRows g).countP fun r => decide (r.1 = nm))
        = ((byAppearanceRows g).map Prod.fst).countP fun b => decide (b = nm) := by
    intro nm _
    rw [List.countP_map]
    rfl
  rw [List.map_congr_left hcnt, sum_countP_dedup, List.length_map]
  unfold byAppearanceRows
  rw [List.length_map, artistTrackRows_length g h1 h2]
  unfold get_total_songs
  rw [List.length_map]

/-- The spec's three-track example: Song A and Song B by Artist X, Song C
by Artist Y. -/
def threeTrackGraph : Graph :=
  [ ⟨.uri "spotify:track:a", rdf_type, schemaMusicRecording⟩,
    ⟨.uri "spotify:track:a", schemaName, .lit "Song A"⟩,
    ⟨.uri "spotify:track:a", schemaDuration, .lit "3:30"⟩,
    ⟨.uri "spotify:track:a", schemaByArtist, .uri "spotify:artist:x"⟩,
    ⟨.uri "spotify:artist:x", schemaName, .lit "Artist X"⟩,
    ⟨.uri "spotify:track:b", rdf_type, schemaMusicRecording⟩,
    ⟨.uri "spotify:track:b", schemaName, .lit "Song B"⟩,
    ⟨.uri "spotify:track:b", schemaDuration, .lit "4:15"⟩,
    ⟨.uri "spotify:track:b", schemaByArtist, .uri "spotify:artist:x"⟩,
    ⟨.uri "spotify:track:c", rdf_type, schemaMusicRecording⟩,
    ⟨.uri "spotify:track:c", schemaName, .lit "Song C"⟩,
    ⟨.uri "spotify:track:c", schemaDuration, .lit "2:00"⟩,
    ⟨.uri "spotify:track:c", schemaByArtist, .uri "spotify:artist:y"⟩,
    ⟨.uri "spotify:artist:y", schemaName, .lit "Artist Y"⟩ ]

/-- Witness for C5 on the spec's three-track example graph. -/
theorem by_appearance_sum_eq_total_songs_witness :
    ((∀ tt ∈ typeTriples threeTrackGraph,
        (objectsOf threeTrackGraph tt.s schemaByArtist).length = 1)
      ∧ (∀ tt ∈ typeTriples threeTrackGraph,
          ∀ a ∈ objectsOf threeTrackGraph tt.s schemaByArtist,
            (objectsOf threeTrackGraph a schemaName).length = 1))
    ∧ ((get_artists_by_appearance threeTrackGraph).map Prod.snd).sum
        = get_total_songs threeTrackGraph :=
  ⟨⟨by decide, by decide⟩,
    by_appearance_sum_eq_total_songs threeTrackGraph (by decide) (by decide)⟩

/-- C9: `get_artists_by_appearance` groups by artist name, not identity.
For every graph in which two distinct artist identities `a1 ≠ a2` both
carry the shared name `n` — i.e. the join rows named `n` are exactly the
rows attributed through `a1` or `a2`, and both have at least one track —
the query reports exactly one row for `n`, and its count is the number of
tracks attributed to `a1` plus the number attributed to `a2`. -/
theorem by_appearance_groups_by_name (g : Graph) (a1 a2 n : Node)
    (hne : a1 ≠ a2)
    (h1 : ∃ r ∈ artistTrackRows g, r.1 = a1)
    (_h2 : ∃ r ∈ artistTrackRows g, r.1 = a2)
    (hall : ∀ r ∈ artistTrackRows g, (r.2.1 = n ↔ (r.1 = a1 ∨ r.1 = a2))) :
    ((get_artists_by_appearance g).filter fun p => decide (p.1 = n)).length = 1
    ∧ (n, ((artistTrackRows g).countP fun r => decide (r.1 = a1))
          + ((artistTrackRows g).countP fun r => decide (r.1 = a2)))
        ∈ get_artists_by_appearance g := by
  have hn_mem : n ∈ (byAppearanceRows g).map Prod.fst := by
    obtain ⟨r, hr, hr1⟩ := h1
    have hrn : r.2.1 = n := (hall r hr).2 (Or.inl hr1)
    exact List.mem_map.2 ⟨(r.2.1, r.2.2), List.mem_map.2 ⟨r, hr, rfl⟩, hrn⟩
  have hperm := sortOrd_perm (fun a b => decide (b.2 ≤ a.2)) (groupRows g)
  unfold get_artists_by_appearance
  constructor
  · rw [← List.countP_eq_length_filter, hperm.countP_eq]
    unfold groupRows
    rw [List.countP_map]
    show (((byAppearanceRows g).map Prod.fst).dedup.countP fun nm => decide (nm = n)) = 1
    exact countP_eq_one_of_nodup_mem _ _ (List.nodup_dedup _) (List.mem_dedup.2 hn_mem)
  · have hcnt : ((byAppearanceRows g).countP fun r => decide (r.1 = n))
        = ((artistTrackRows g).countP fun r => decide (r.1 = a1))
          + ((artistTrackRows g).countP fun r => decide (r.1 = a2)) := by
      unfold byAppearanceRows
      rw [List.countP_map]
      show ((artistTrackRows g).countP fun r => decide (r.2.1 = n)) = _
      have hsplit : ((artistTrackRows g).countP fun r => decide (r.2.1 = n))
          = (artistTrackRows g).countP fun r => decide (r.1 = a1 ∨ r.1 = a2) :=
        countP_congr_mem _ _ _ fun r hr => decide_eq_decide.mpr (hall r hr)
      rw [hsplit]
      exact countP_or_split _ _ _ fun r _ hb => hne (hb.1.symm.trans hb.2)
    rw [← hcnt, hperm.mem_iff]
    exact List.mem_map.2 ⟨n, List.mem_dedup.2 hn_mem, rfl⟩

/-- Two distinct artist identities that share the literal name `"X"`, each
with one track. -/
def sharedNameGraph : Graph :=
  [ ⟨.uri "spotify:track:1", rdf_type, schemaMusicRecording⟩,
    ⟨.uri "spotify:track:1", schemaByArtist, .uri "spotify:artist:1"⟩,
    ⟨.uri "spotify:artist:1", schemaName, .lit "X"⟩,
    ⟨.uri "spotify:track:2", rdf_type, schemaMusicRecording⟩,
    ⟨.uri "spotify:track:2", schemaByArtist, .uri "spotify:artist:2"⟩,
    ⟨.uri "spotify:artist:2", schemaName, .lit "X"⟩ ]

/-- Witness for C9 on a graph with two artist identities sharing one
name. -/
theorem by_appearance_groups_by_name_witness :
    ((Node.uri "spotify:artist:1" ≠ Node.uri "spotify:artist:2")
      ∧ (∃ r ∈ artistTrackRows sharedNameGraph, r.1 = Node.uri "spotify:artist:1")
      ∧ (∃ r ∈ artistTrackRows sharedNameGraph, r.1 = Node.uri "spotify:artist:2")
      ∧ (∀ r ∈ artistTrackRows sharedNameGraph,
          (r.2.1 = Node.lit "X"
            ↔ (r.1 = Node.uri "spotify:artist:1" ∨ r.1 = Node.uri "spotify:artist:2"))))
    ∧ (((get_artists_by_appearance sharedNameGraph).filter fun p =>
          decide (p.1 = Node.lit "X")).length = 1
        ∧ (Node.lit "X",
            ((artistTrackRows sharedNameGraph).countP fun r =>
              decide (r.1 = Node.uri "spotify:artist:1"))
            + ((artistTrackRows sharedNameGraph).countP fun r =>
              decide (r.1 = Node.uri "spotify:artist:2")))
          ∈ get_artists_by_appearance sharedNameGraph) :=
  ⟨⟨by decide, by decide, by decide, by decide⟩,
    by_appearance_groups_by_name sharedNameGraph _ _ _
      (by decide) (by decide) (by decide) (by decide)⟩

/-- In a graph built from items with pairwise-distinct track URIs that are
also distinct from every artist and album URI, a triple whose subject is
`it`'s track URI can only be one of `it`'s own emitted triples. -/
theorem buildGraph_subject_mem (items : List TrackRec) (it : TrackRec)
    (hit : it ∈ items)
    (hU : (items.map TrackRec.uri).Nodup)
    (hTA : ∀ i ∈ items, ∀ j ∈ items, i.uri ≠ j.artist.uri)
    (hTB : ∀ i ∈ items, ∀ j ∈ items, i.uri ≠ j.album.uri) :
    ∀ tr ∈ buildGraph items, tr.s = Node.uri it.uri → tr ∈ trackTriples it := by
  have hinj := List.inj_on_of_nodup_map hU
  intro tr htr hs
  obtain ⟨j, hj, hjt⟩ := (mem_buildGraph items tr).1 htr
  simp only [trackTriples, List.mem_cons, List.not_mem_nil, or_false] at hjt
  rcases hjt with h|h|h|h|h|h|h
  · subst h
    have hje : j = it := hinj hj hit (by simpa using hs)
    subst hje
    simp [trackTriples]
  · subst h
    have hje : j = it := hinj hj hit (by simpa using hs)
    subst hje
    simp [trackTriples]
  · subst h
    have hje : j = it := hinj hj hit (by simpa using hs)
    subst hje
    simp [trackTriples]
  · subst h
    have hje : j = it := hinj hj hit (by simpa using hs)
    subst hje
    simp [trackTriples]
  · subst h
    have hc : j.artist.uri = it.uri := by simpa using hs
    exact absurd hc.symm (hTA it hit j hj)
  · subst h
    have hje : j = it := hinj hj hit (by simpa using hs)
    subst hje
    simp [trackTriples]
  · subst h
    have hc : j.album.uri = it.uri := by simpa using hs
    exact absurd hc.symm (hTB it hit j hj)

/-- Among the seven triples emitted for one item, the only one with the
track subject and predicate `name` is the track's name triple (artist and
album name triples sit on other subjects when URI spaces are disjoint). -/
theorem trackTriples_name_uniq (it : TrackRec)
    (hta : it.uri ≠ it.artist.uri) (htb : it.uri ≠ it.album.uri) :
    ∀ y ∈ trackTriples it, y.s = Node.uri it.uri → y.p = schemaName →
      y = ⟨Node.uri it.uri, schemaName, Node.lit it.name⟩ := by
  intro y hy hys hyp
  simp only [trackTriples, List.mem_cons, List.not_mem_nil, or_false] at hy
  rcases hy with h|h|h|h|h|h|h <;> subst h
  · exact absurd hyp (show rdf_type ≠ schemaName by decide)
  · rfl
  · exact absurd hyp (show schemaDuration ≠ schemaName by decide)
  · exact absurd hyp (show schemaByArtist ≠ schemaName by decide)
  · have hc : it.artist.uri = it.uri := by simpa using hys
    exact absurd hc.symm hta
  · exact absurd hyp (show schemaInAlbum ≠ schemaName by decide)
  · have hc : it.album.uri = it.uri := by simpa using hys
    exact absurd hc.symm htb

/-- The only emitted triple with the track subject and predicate
`duration` is the duration triple. -/
theorem trackTriples_duration_uniq (it : TrackRec) :
    ∀ y ∈ trackTriples it, y.s = Node.uri it.uri → y.p = schemaDuration →
      y = ⟨Node.uri it.uri, schemaDuration, Node.lit (convert_duration it.duration_ms)⟩ := by
  intro y hy _hys hyp
  simp only [trackTriples, List.mem_cons, List.not_mem_nil, or_false] at hy
  rcases hy with h|h|h|h|h|h|h <;> subst h
  · exact absurd hyp (show rdf_type ≠ schemaDuration by decide)
  · exact absurd hyp (show schemaName ≠ schemaDuration by decide)
  · rfl
  · exact absurd hyp (show schemaByArtist ≠ schemaDuration by decide)
  · exact absurd hyp (show schemaName ≠ schemaDuration by decide)
  · exact absurd hyp (show schemaInAlbum ≠ schemaDuration by decide)
  · exact absurd hyp (show schemaName ≠ schemaDuration by decide)

/-- The only emitted triple with the track subject and predicate
`byArtist` is the artist reference. -/
theorem trackTriples_byArtist_uniq (it : TrackRec) :
    ∀ y ∈ trackTriples it, y.s = Node.uri it.uri → y.p = schemaByArtist →
      y = ⟨Node.uri it.uri, schemaByArtist, Node.uri it.artist.uri⟩ := by
  intro y hy _hys hyp
  simp only [trackTriples, List.mem_cons, List.not_mem_nil, or_false] at hy
  rcases hy with h|h|h|h|h|h|h <;> subst h
  · exact absurd hyp (show rdf_type ≠ schemaByArtist by decide)
  · exact absurd hyp (show schemaName ≠ schemaByArtist by decide)
  · exact absurd hyp (show schemaDuration ≠ schemaByArtist by decide)
  · rfl
  · exact absurd hyp (show schemaName ≠ schemaByArtist by decide)
  · exact absurd hyp (show schemaInAlbum ≠ schemaByArtist by decide)
  · exact absurd hyp (show schemaName ≠ schemaByArtist by decide)

/-- The only emitted triple with the track subject and predicate
`inAlbum` is the album reference. -/
theorem trackTriples_inAlbum_uniq (it : TrackRec) :
    ∀ y ∈ trackTriples it, y.s = Node.uri it.uri → y.p = schemaInAlbum →
      y = ⟨Node.uri it.uri, schemaInAlbum, Node.uri it.album.uri⟩ := by
  intro y hy _hys hyp
  simp only [trackTriples, List.mem_cons, List.not_mem_nil, or_false] at hy
  rcases hy with h|h|h|h|h|h|h <;> subst h
  · exact absurd hyp (show rdf_type ≠ schemaInAlbum by decide)
  · exact absurd hyp (show schemaName ≠ schemaInAlbum by decide)
  · exact absurd hyp (show schemaDuration ≠ schemaInAlbum by decide)
  · exact absurd hyp (show schemaByArtist ≠ schemaInAlbum by decide)
  · exact absurd hyp (show schemaName ≠ schemaInAlbum by decide)
  · rfl
  · exact absurd hyp (show schemaName ≠ schemaInAlbum by decide)

/-- In such a graph, `it`'s track subject carries exactly one triple with
predicate `pred` whenever exactly one of `it`'s seven emitted triples has
the track subject and that predicate. -/
theorem buildGraph_subject_count (items : List TrackRec) (it : TrackRec)
    (hit : it ∈ items)
    (hU : (items.map TrackRec.uri).Nodup)
    (hTA : ∀ i ∈ items, ∀ j ∈ items, i.uri ≠ j.artist.uri)
    (hTB : ∀ i ∈ items, ∀ j ∈ items, i.uri ≠ j.album.uri)
    (pred : Node) (x : Triple) (hx : x ∈ trackTriples it)
    (hxp : decide (x.s = Node.uri it.uri ∧ x.p = pred) = true)
    (huniq : ∀ y ∈ trackTriples it, y.s = Node.uri it.uri → y.p = pred → y = x) :
    ((buildGraph items).filter fun tr =>
      decide (tr.s = Node.uri it.uri ∧ tr.p = pred)).length = 1 := by
  apply length_eq_one_of_nodup _ x
  · exact List.Nodup.filter _ (nodup_buildGraph items)
  · exact List.mem_filter.2 ⟨(mem_buildGraph items x).2 ⟨it, hit, hx⟩, hxp⟩
  · intro y hy
    rw [List.mem_filter] at hy
    have hys : y.s = Node.uri it.uri ∧ y.p = pred := by simpa using hy.2
    exact huniq y
      (buildGraph_subject_mem items it hit hU hTA hTB y hy.1 hys.1) hys.1 hys.2

/-- C6: for every playlist item (all fields present, identities
well-separated: pairwise-distinct track URIs, no track URI colliding with
an artist or album URI), the built graph contains all seven emitted
triples for that item, every triple on the track's subject is one of
them, and the track has exactly one name, one duration, one `byArtist`
reference and one `inAlbum` reference. -/
theorem extractor_emits_exact_track_triples (items : List TrackRec)
    (it : TrackRec) (hit : it ∈ items)
    (hU : (items.map TrackRec.uri).Nodup)
    (hTA : ∀ i ∈ items, ∀ j ∈ items, i.uri ≠ j.artist.uri)
    (hTB : ∀ i ∈ items, ∀ j ∈ items, i.uri ≠ j.album.uri) :
    (∀ tr ∈ trackTriples it, tr ∈ buildGraph items)
    ∧ (∀ tr ∈ buildGraph items, tr.s = Node.uri it.uri → tr ∈ trackTriples it)
    ∧ ((buildGraph items).filter fun tr =>
        decide (tr.s = Node.uri it.uri ∧ tr.p = schemaName)).length = 1
    ∧ ((buildGraph items).filter fun tr =>
        decide (tr.s = Node.uri it.uri ∧ tr.p = schemaDuration)).length = 1
    ∧ ((buildGraph items).filter fun tr =>
        decide (tr.s = Node.uri it.uri ∧ tr.p = schemaByArtist)).length = 1
    ∧ ((buildGraph items).filter fun tr =>
        decide (tr.s = Node.uri it.uri ∧ tr.p = schemaInAlbum)).length = 1 := by
  refine ⟨fun tr htr => (mem_buildGraph items tr).2 ⟨it, hit, htr⟩,
    buildGraph_subject_mem items it hit hU hTA hTB, ?_, ?_, ?_, ?_⟩
  · exact buildGraph_subject_count items it hit hU hTA hTB schemaName
      ⟨Node.uri it.uri, schemaName, Node.lit it.name⟩ (by simp [trackTriples]) (by simp)
      (trackTriples_name_uniq it (hTA it hit it hit) (hTB it hit it hit))
  · exact buildGraph_subject_count items it hit hU hTA hTB schemaDuration
      ⟨Node.uri it.uri, schemaDuration, Node.lit (convert_duration it.duration_ms)⟩
      (by simp [trackTriples]) (by simp)
      (trackTriples_duration_uniq it)
  · exact buildGraph_subject_count items it hit hU hTA hTB schemaByArtist
      ⟨Node.uri it.uri, schemaByArtist, Node.uri it.artist.uri⟩
      (by simp [trackTriples]) (by simp)
      (trackTriples_byArtist_uniq it)
  · exact buildGraph_subject_count items it hit hU hTA hTB schemaInAlbum
      ⟨Node.uri it.uri, schemaInAlbum, Node.uri it.album.uri⟩
      (by simp [trackTriples]) (by simp)
      (trackTriples_inAlbum_uniq it)

/-- Example playlist item A (two items sharing artist and album, distinct
track URIs). -/
def exampleItemA : TrackRec :=
  ⟨"spotify:track:a", "Song A", 210500,
    ⟨"spotify:artist:x", "Artist X"⟩, ⟨"spotify:album:p", "Album P"⟩⟩

/-- Example playlist item B. -/
def exampleItemB : TrackRec :=
  ⟨"spotify:track:b", "Song B", 255999,
    ⟨"spotify:artist:x", "Artist X"⟩, ⟨"spotify:album:p", "Album P"⟩⟩

/-- An example two-item playlist. -/
def exampleItems : List TrackRec := [exampleItemA, exampleItemB]

/-- Witness for C6 on a concrete two-item playlist. -/
theorem extractor_emits_exact_track_triples_witness :
    (exampleItemA ∈ exampleItems
      ∧ (exampleItems.map TrackRec.uri).Nodup
      ∧ (∀ i ∈ exampleItems, ∀ j ∈ exampleItems, i.uri ≠ j.artist.uri)
      ∧ (∀ i ∈ exampleItems, ∀ j ∈ exampleItems, i.uri ≠ j.album.uri))
    ∧ ((∀ tr ∈ trackTriples exampleItemA, tr ∈ buildGraph exampleItems)
      ∧ (∀ tr ∈ buildGraph exampleItems,
          tr.s = Node.uri exampleItemA.uri → tr ∈ trackTriples exampleItemA)
      ∧ ((buildGraph exampleItems).filter fun tr =>
          decide (tr.s = Node.uri exampleItemA.uri ∧ tr.p = schemaName)).length = 1
      ∧ ((buildGraph exampleItems).filter fun tr =>
          decide (tr.s = Node.uri exampleItemA.uri ∧ tr.p = schemaDuration)).length = 1
      ∧ ((buildGraph exampleItems).filter fun tr =>
          decide (tr.s = Node.uri exampleItemA.uri ∧ tr.p = schemaByArtist)).length = 1
      ∧ ((buildGraph exampleItems).filter fun tr =>
          decide (tr.s = Node.uri exampleItemA.uri ∧ tr.p = schemaInAlbum)).length = 1) :=
  ⟨⟨by decide, by decide, by decide, by decide⟩,
    extractor_emits_exact_track_triples exampleItems exampleItemA
      (by decide) (by decide) (by decide) (by decide)⟩
